import Mathlib

/-!
Shallow embedding of `src/avr/simm8a.c` from gnu_mcusim: ATmega8A
configuration (fuse and lock bits), program-memory binding, and the
two-pass Intel-HEX load/verify protocol.

Machine integers are modelled as `Nat` with explicit masking where the C
code masks; bytes extracted from fuse values are produced by `&&&`, so
they are bounded by construction.  Fallible C functions (returning `int`
error codes plus in-place mutation of the descriptor) are modelled as
functions returning the final descriptor together with an `Option Err`
(`none` = success), which keeps the partial mutations that C leaves
behind on failure observable.
-/

/-- Error kinds of the module, as the specification names the distinct
failure exits of the C code (each C failure path is a distinct
diagnostic message attached to a `return -1`). -/
inductive Err where
  | NullMCU : Err
  | SizeMismatch : Nat → Nat → Err
  | NoStream : Err
  | ChecksumMismatch : Nat → Nat → Err
  | InvalidFuseConfig : Err
  | NotImplemented : Err
deriving DecidableEq

/-- Clock source constants `AVR_INT_CLK` / `AVR_EXT_CLK` from the
simulator headers. -/
inductive ClkSource where
  | AVR_INT_CLK : ClkSource
  | AVR_EXT_CLK : ClkSource
deriving DecidableEq

/-- Boot loader parameters, the fields of `mcu->boot_loader`. -/
structure BootLoader where
  start : Nat
  end_ : Nat
  size : Nat
deriving DecidableEq

/-- Program memory as a byte-addressable map.  The C buffer is an array
of 16-bit words written and read through `memcpy`, i.e. byte by byte, so
a byte map is the exact observable state. -/
def Mem : Type := Nat → Nat

/-- Descriptor `struct avr` restricted to the fields this translation
unit touches.  `fuse0`/`fuse1` are `fuse[0]`/`fuse[1]`; `prog_mem` is
the program-memory pointer (`none` = not bound). -/
structure Avr where
  name : String
  spm_pagesize : Nat
  flashstart : Nat
  flashend : Nat
  ramstart : Nat
  ramend : Nat
  ramsize : Nat
  e2start : Nat
  e2end : Nat
  e2size : Nat
  e2pagesize : Nat
  lockbits : Nat
  fuse0 : Nat
  fuse1 : Nat
  clk_source : ClkSource
  freq : Nat
  boot_loader : BootLoader
  prog_mem : Option Mem

/-- Sentinel `UINT32_MAX`, the "unknown frequency" marker. -/
def UINT32_MAX : Nat := 4294967295

/-- Translation of `is_ckopt_programmed`: returns `-1` when the CKOPT
field is `0` (programmed), `0` otherwise. -/
def is_ckopt_programmed (ckopt_f : Nat) : Int :=
  if ckopt_f = 0 then -1 else 0

/-- Translation of `set_fuse_bytes`.  Stores the raw fuse bytes, sets
the boot loader region from BOOTSZ1:0 (bits 2:1 of the high byte), then
decodes CKOPT (bit 4 of the high byte) and CKSEL3:0 (low nibble of the
low byte).  The returned descriptor is the state after the in-place
mutations the C code performed, also on the failing paths. -/
def set_fuse_bytes (mcu : Avr) (high low : Nat) : Avr × Option Err :=
  let mcu1 : Avr := { mcu with fuse1 := high, fuse0 := low }
  let bldr_f : Nat := (high >>> 1) &&& 0x03
  let mcu2 : Avr :=
    if bldr_f = 0x01 then
      { mcu1 with boot_loader := ⟨0xE00, 0xFFF, 512⟩ }
    else if bldr_f = 0x02 then
      { mcu1 with boot_loader := ⟨0xF00, 0xFFF, 256⟩ }
    else if bldr_f = 0x03 then
      { mcu1 with boot_loader := ⟨0xF80, 0xFFF, 128⟩ }
    else
      { mcu1 with boot_loader := ⟨0xC00, 0xFFF, 1024⟩ }
  let ckopt_f : Nat := (high >>> 4) &&& 0x01
  let cksel_f : Nat := low &&& 0x0F
  if cksel_f = 0x02 then
    if is_ckopt_programmed ckopt_f ≠ 0 then (mcu2, some Err.InvalidFuseConfig)
    else ({ mcu2 with clk_source := ClkSource.AVR_INT_CLK, freq := 2000 }, none)
  else if cksel_f = 0x03 then
    if is_ckopt_programmed ckopt_f ≠ 0 then (mcu2, some Err.InvalidFuseConfig)
    else ({ mcu2 with clk_source := ClkSource.AVR_INT_CLK, freq := 4000 }, none)
  else if cksel_f = 0x04 then
    if is_ckopt_programmed ckopt_f ≠ 0 then (mcu2, some Err.InvalidFuseConfig)
    else ({ mcu2 with clk_source := ClkSource.AVR_INT_CLK, freq := 8000 }, none)
  else if cksel_f = 0x00 then
    ({ mcu2 with clk_source := ClkSource.AVR_EXT_CLK, freq := UINT32_MAX }, none)
  else
    if is_ckopt_programmed ckopt_f ≠ 0 then (mcu2, some Err.InvalidFuseConfig)
    else ({ mcu2 with clk_source := ClkSource.AVR_INT_CLK, freq := 1000 }, none)

/-- ATmega8A memory-layout constants supplied by the avr-libc header
selected through `avr/io.h` (datasheet values for this device). -/
def SPM_PAGESIZE : Nat := 64
def FLASHSTART : Nat := 0x0000
def FLASHEND : Nat := 0x1FFF
def RAMSTART : Nat := 0x60
def RAMEND : Nat := 0x45F
def RAMSIZE : Nat := 1024
def E2START : Nat := 0
def E2END : Nat := 0x1FF
def E2SIZE : Nat := 512
def E2PAGESIZE : Nat := 4

/-- Translation of `m8a_init`: rejects a NULL descriptor, otherwise
sets identity, memory layout, default lock bits `0x3F`, and calls
`set_fuse_bytes` with the default fuse bytes `0xD9`/`0xE1`, propagating
its failure. -/
def m8a_init (mcuP : Option Avr) : Except Err Avr :=
  match mcuP with
  | none => Except.error Err.NullMCU
  | some mcu =>
    let mcu : Avr := { mcu with
      name := "atmega8a",
      spm_pagesize := SPM_PAGESIZE,
      flashstart := FLASHSTART,
      flashend := FLASHEND,
      ramstart := RAMSTART,
      ramend := RAMEND,
      ramsize := RAMSIZE,
      e2start := E2START,
      e2end := E2END,
      e2size := E2SIZE,
      e2pagesize := E2PAGESIZE,
      lockbits := 0x3F }
    match set_fuse_bytes mcu 0xD9 0xE1 with
    | (_, some e) => Except.error e
    | (mcu2, none) => Except.ok mcu2

/-- Translation of `m8a_set_progmem`.  The C code computes
`flash_size = (uint16_t)((flashend - flashstart) + 1) / 2`: the span is
truncated to 16 bits by the cast before the division.  The subtraction
follows the documented invariant `flashend ≥ flashstart` (theorems
about arbitrary descriptors carry it as a hypothesis). -/
def m8a_set_progmem (mcu : Avr) (mem : Mem) (size : Nat) : Avr × Option Err :=
  let flash_size : Nat := ((mcu.flashend - mcu.flashstart + 1) % 65536) / 2
  if size ≠ flash_size then
    (mcu, some (Err.SizeMismatch flash_size size))
  else
    ({ mcu with prog_mem := some mem }, none)

/-- Translation of `m8a_set_datamem`: unconditionally `return -1`. -/
def m8a_set_datamem (mcu : Avr) (mem : Mem) (size : Nat) : Avr × Option Err :=
  (mcu, some Err.NotImplemented)

/-- Modelled from the spec: the record type of `tools/gis/ihex` (not
under src).  One parsed Intel-HEX line: a 16-bit address, the data
payload (`dataLen` is the length of `data`), the record type byte and
the stored checksum byte. -/
structure IHexRecord where
  address : Nat
  data : List Nat
  type : Nat
  checksum : Nat
deriving DecidableEq

/-- Record type constant `IHEX_TYPE_00` (Data). -/
def IHEX_TYPE_00 : Nat := 0

/-- Modelled from the spec: `Checksum_IHexRecord` of `tools/gis/ihex`
(not under src).  The checksum is the twos complement, modulo 256, of
the sum of all other bytes of the record: the byte count, the two
address bytes, the type byte and the data bytes. -/
def Checksum_IHexRecord (r : IHexRecord) : Nat :=
  (256 - (r.data.length + (r.address >>> 8) % 256 + r.address % 256
          + r.type + r.data.sum) % 256) % 256

/-- Byte-level semantics of `memcpy(base, data, data.length)` into the
byte map `mem`. -/
def writeBytes (mem : Mem) (base : Nat) (data : List Nat) : Mem :=
  fun a => if base ≤ a ∧ a < base + data.length then data.getD (a - base) 0 else mem a

/-- Byte-level semantics of `memcpy` out of the byte map: the `len`
bytes starting at `base`. -/
def readBytes (mem : Mem) (base len : Nat) : List Nat :=
  (List.range len).map (fun i => mem (base + i))

/-- Byte offset targeted by a record: `prog_mem + rec.address / 2`
points at word index `address / 2`, i.e. byte offset
`2 * (address / 2)`. -/
def recBase (r : IHexRecord) : Nat := 2 * (r.address / 2)

/-- Ingest pass of `m8a_load_progmem`: each Data record is copied into
program memory at its word-aligned offset; every other record type is
skipped. -/
def ingest (mem : Mem) : List IHexRecord → Mem
  | [] => mem
  | r :: rs =>
    if r.type = IHEX_TYPE_00 then
      ingest (writeBytes mem (recBase r) r.data) rs
    else
      ingest mem rs

/-- Verify pass of `m8a_load_progmem`: replay the records; for each
Data record rebuild a record from current memory at the same
address/length, recompute its checksum and compare it with the stored
one.  The first mismatch aborts with the diagnostic pair
(memory record, file record); `none` means success. -/
def verify (mem : Mem) : List IHexRecord → Option (IHexRecord × IHexRecord)
  | [] => none
  | r :: rs =>
    if r.type ≠ IHEX_TYPE_00 then verify mem rs
    else
      let mem_rec0 : IHexRecord :=
        { address := r.address,
          data := readBytes mem (recBase r) r.data.length,
          type := r.type,
          checksum := 0 }
      let mem_rec : IHexRecord :=
        { mem_rec0 with checksum := Checksum_IHexRecord mem_rec0 }
      if mem_rec.checksum ≠ r.checksum then some (mem_rec, r)
      else verify mem rs

/-- Translation of `m8a_load_progmem`, over the buffer `mem` that
`mcu->prog_mem` points to.  Modelled from the spec where the stream
side is concerned: `Read_IHexRecord` of `tools/gis/ihex` is not under
src, so a usable stream is materialized as the list of records it
parses to (`none` is the NULL stream).  A NULL stream fails before any
write; otherwise the ingest pass runs, then the verify pass, whose
first mismatch fails with `ChecksumMismatch` carrying both checksums. -/
def m8a_load_progmem (mem : Mem) (stream : Option (List IHexRecord)) :
    Mem × Option Err :=
  match stream with
  | none => (mem, some Err.NoStream)
  | some recs =>
    let mem1 := ingest mem recs
    match verify mem1 recs with
    | none => (mem1, none)
    | some (mem_rec, file_rec) =>
      (mem1, some (Err.ChecksumMismatch mem_rec.checksum file_rec.checksum))

/-- Demonstration descriptor used to instantiate universally quantified
theorems at a concrete input. -/
def demoAvr : Avr :=
  { name := "", spm_pagesize := 0, flashstart := 0, flashend := 0,
    ramstart := 0, ramend := 0, ramsize := 0, e2start := 0, e2end := 0,
    e2size := 0, e2pagesize := 0, lockbits := 0, fuse0 := 0, fuse1 := 0,
    clk_source := ClkSource.AVR_EXT_CLK, freq := 0,
    boot_loader := ⟨0, 0, 0⟩, prog_mem := none }

/-- Corruption experiment of the round-trip property: the byte at
position `p` of the loaded memory is replaced by `c` between the two
passes. -/
def corruptAt (mem : Mem) (p c : Nat) : Mem :=
  fun a => if a = p then c else mem a

/-- Well-formed image: every Data record carries its own recomputed
checksum. -/
def goodChecksums (recs : List IHexRecord) : Prop :=
  ∀ r ∈ recs, r.type = IHEX_TYPE_00 → r.checksum = Checksum_IHexRecord r

instance (recs : List IHexRecord) : Decidable (goodChecksums recs) := by
  unfold goodChecksums
  infer_instance

/-- Byte ranges written by two records do not overlap. -/
def dataDisjoint (a b : IHexRecord) : Prop :=
  recBase a + a.data.length ≤ recBase b ∨ recBase b + b.data.length ≤ recBase a

instance (a b : IHexRecord) : Decidable (dataDisjoint a b) := by
  unfold dataDisjoint
  infer_instance

/-- The Data records of the image write pairwise disjoint byte
ranges. -/
def recsDisjoint (recs : List IHexRecord) : Prop :=
  recs.Pairwise (fun a b => a.type = IHEX_TYPE_00 → b.type = IHEX_TYPE_00 → dataDisjoint a b)

instance (recs : List IHexRecord) : Decidable (recsDisjoint recs) := by
  unfold recsDisjoint
  infer_instance

/-- Demonstration Intel-HEX Data record with a correct checksum. -/
def demoRec : IHexRecord := ⟨0, [0xAB, 0xCD], 0, 134⟩

/-- All-zero program memory. -/
def memZero : Mem := fun _ => 0

set_option maxHeartbeats 1000000 in
/-- Helper: `set_fuse_bytes` stores the raw fuse bytes on every path. -/
theorem set_fuse_bytes_fuse (mcu : Avr) (high low : Nat) :
    (set_fuse_bytes mcu high low).1.fuse1 = high ∧
    (set_fuse_bytes mcu high low).1.fuse0 = low := by
  unfold set_fuse_bytes
  dsimp only
  split_ifs <;> exact ⟨rfl, rfl⟩

set_option maxHeartbeats 1000000 in
/-- Helper: the boot loader region written by `set_fuse_bytes` is
determined by BOOTSZ1:0, on every path. -/
theorem set_fuse_bytes_boot (mcu : Avr) (high low : Nat) :
    (set_fuse_bytes mcu high low).1.boot_loader =
      (if (high >>> 1) &&& 0x03 = 0x01 then (⟨0xE00, 0xFFF, 512⟩ : BootLoader)
       else if (high >>> 1) &&& 0x03 = 0x02 then ⟨0xF00, 0xFFF, 256⟩
       else if (high >>> 1) &&& 0x03 = 0x03 then ⟨0xF80, 0xFFF, 128⟩
       else ⟨0xC00, 0xFFF, 1024⟩) := by
  unfold set_fuse_bytes
  dsimp only
  split_ifs <;> rfl

set_option maxHeartbeats 1000000 in
/-- Helper: `set_fuse_bytes` fails exactly when an internal clock is
selected (CKSEL ≠ 0) while CKOPT is programmed (0), and the failure is
always `InvalidFuseConfig`. -/
theorem set_fuse_bytes_snd (mcu : Avr) (high low : Nat) :
    (set_fuse_bytes mcu high low).2 =
      (if low &&& 0x0F ≠ 0 ∧ (high >>> 4) &&& 0x01 = 0
       then some Err.InvalidFuseConfig else none) := by
  unfold set_fuse_bytes is_ckopt_programmed
  dsimp only
  split_ifs <;> simp_all

set_option maxHeartbeats 1000000 in
/-- Helper: on success, clock source and frequency decoded by
`set_fuse_bytes` as a function of CKSEL. -/
theorem set_fuse_bytes_clk (mcu : Avr) (high low : Nat)
    (h : (set_fuse_bytes mcu high low).2 = none) :
    ((set_fuse_bytes mcu high low).1.clk_source,
     (set_fuse_bytes mcu high low).1.freq) =
      (if low &&& 0x0F = 0x00 then (ClkSource.AVR_EXT_CLK, UINT32_MAX)
       else if low &&& 0x0F = 0x02 then (ClkSource.AVR_INT_CLK, 2000)
       else if low &&& 0x0F = 0x03 then (ClkSource.AVR_INT_CLK, 4000)
       else if low &&& 0x0F = 0x04 then (ClkSource.AVR_INT_CLK, 8000)
       else (ClkSource.AVR_INT_CLK, 1000)) := by
  revert h
  unfold set_fuse_bytes is_ckopt_programmed
  dsimp only
  split_ifs <;> intro h <;> first | rfl | simp_all

/-- C2: for every pair of fuse bytes, CKSEL in {1,2,3,4} with
CKOPT = 1 decodes to the internal clock at 1000, 2000, 4000, 8000
frequency units respectively; any internal selection (CKSEL ≠ 0) with
CKOPT = 0 fails with `InvalidFuseConfig`; and no other input fails. -/
theorem c2_internal_clock_decoding (mcu : Avr) (high low : Nat) :
    ((low &&& 0x0F = 1 ∨ low &&& 0x0F = 2 ∨ low &&& 0x0F = 3 ∨ low &&& 0x0F = 4) →
      (high >>> 4) &&& 0x01 = 1 →
      (set_fuse_bytes mcu high low).2 = none ∧
      (set_fuse_bytes mcu high low).1.clk_source = ClkSource.AVR_INT_CLK ∧
      (set_fuse_bytes mcu high low).1.freq =
        (if low &&& 0x0F = 1 then 1000
         else if low &&& 0x0F = 2 then 2000
         else if low &&& 0x0F = 3 then 4000
         else 8000)) ∧
    (low &&& 0x0F ≠ 0 → (high >>> 4) &&& 0x01 = 0 →
      (set_fuse_bytes mcu high low).2 = some Err.InvalidFuseConfig) ∧
    (∀ e, (set_fuse_bytes mcu high low).2 = some e →
      e = Err.InvalidFuseConfig ∧ low &&& 0x0F ≠ 0 ∧ (high >>> 4) &&& 0x01 = 0) := by
  refine ⟨?_, ?_, ?_⟩
  · intro hsel hck
    have hsnd : (set_fuse_bytes mcu high low).2 = none := by
      rw [set_fuse_bytes_snd]
      rcases hsel with h | h | h | h <;> simp [h, hck]
    refine ⟨hsnd, ?_⟩
    have hclk := set_fuse_bytes_clk mcu high low hsnd
    rcases hsel with h | h | h | h <;>
      · rw [h] at hclk ⊢
        simp only [Prod.mk.injEq, reduceIte, Nat.reduceEqDiff] at hclk
        simp [hclk.1, hclk.2]
  · intro hsel hck
    rw [set_fuse_bytes_snd]
    simp [hsel, hck]
  · intro e he
    rw [set_fuse_bytes_snd] at he
    by_cases hc : low &&& 0x0F ≠ 0 ∧ (high >>> 4) &&& 0x01 = 0
    · rw [if_pos hc] at he
      exact ⟨(Option.some.injEq _ _ ▸ he).symm, hc.1, hc.2⟩
    · rw [if_neg hc] at he
      exact absurd he (by simp)

/-- C2 witness: concrete instances, one per decoded CKSEL value and one
failing pair. -/
theorem c2_witness :
    ((set_fuse_bytes demoAvr 0x10 0x01).2 = none ∧
      (set_fuse_bytes demoAvr 0x10 0x01).1.freq = 1000) ∧
    ((set_fuse_bytes demoAvr 0x10 0x02).2 = none ∧
      (set_fuse_bytes demoAvr 0x10 0x02).1.freq = 2000) ∧
    ((set_fuse_bytes demoAvr 0x10 0x03).2 = none ∧
      (set_fuse_bytes demoAvr 0x10 0x03).1.freq = 4000) ∧
    ((set_fuse_bytes demoAvr 0x10 0x04).2 = none ∧
      (set_fuse_bytes demoAvr 0x10 0x04).1.freq = 8000) ∧
    (set_fuse_bytes demoAvr 0x00 0x01).2 = some Err.InvalidFuseConfig := by
  have h1 := (c2_internal_clock_decoding demoAvr 0x10 0x01).1
    (by decide) (by decide)
  have h2 := (c2_internal_clock_decoding demoAvr 0x10 0x02).1
    (by decide) (by decide)
  have h3 := (c2_internal_clock_decoding demoAvr 0x10 0x03).1
    (by decide) (by decide)
  have h4 := (c2_internal_clock_decoding demoAvr 0x10 0x04).1
    (by decide) (by decide)
  have h5 := (c2_internal_clock_decoding demoAvr 0x00 0x01).2.1
    (by decide) (by decide)
  refine ⟨⟨h1.1, ?_⟩, ⟨h2.1, ?_⟩, ⟨h3.1, ?_⟩, ⟨h4.1, ?_⟩, h5⟩
  · simpa using h1.2.2
  · simpa using h2.2.2
  · simpa using h3.2.2
  · simpa using h4.2.2

/-- C3: the boot-size field (bits 2:1 of the high fuse byte) selects
the boot loader region: 00 and any pattern other than 01, 10, 11 gives
(0xC00, 0xFFF, 1024); 01 gives (0xE00, 0xFFF, 512); 10 gives
(0xF00, 0xFFF, 256); 11 gives (0xF80, 0xFFF, 128). -/
theorem c3_boot_size_regions (mcu : Avr) (high low : Nat) :
    ((high >>> 1) &&& 0x03 = 0 →
      (set_fuse_bytes mcu high low).1.boot_loader = ⟨0xC00, 0xFFF, 1024⟩) ∧
    ((high >>> 1) &&& 0x03 = 1 →
      (set_fuse_bytes mcu high low).1.boot_loader = ⟨0xE00, 0xFFF, 512⟩) ∧
    ((high >>> 1) &&& 0x03 = 2 →
      (set_fuse_bytes mcu high low).1.boot_loader = ⟨0xF00, 0xFFF, 256⟩) ∧
    ((high >>> 1) &&& 0x03 = 3 →
      (set_fuse_bytes mcu high low).1.boot_loader = ⟨0xF80, 0xFFF, 128⟩) ∧
    ((high >>> 1) &&& 0x03 ≠ 1 → (high >>> 1) &&& 0x03 ≠ 2 →
      (high >>> 1) &&& 0x03 ≠ 3 →
      (set_fuse_bytes mcu high low).1.boot_loader = ⟨0xC00, 0xFFF, 1024⟩) := by
  have hb := set_fuse_bytes_boot mcu high low
  exact ⟨fun h => by rw [hb]; simp [h],
         fun h => by rw [hb]; simp [h],
         fun h => by rw [hb]; simp [h],
         fun h => by rw [hb]; simp [h],
         fun h1 h2 h3 => by rw [hb, if_neg h1, if_neg h2, if_neg h3]⟩

/-- C3 witness: the four boot-size patterns at concrete fuse bytes. -/
theorem c3_witness :
    (set_fuse_bytes demoAvr 0x00 0x00).1.boot_loader = ⟨0xC00, 0xFFF, 1024⟩ ∧
    (set_fuse_bytes demoAvr 0x02 0x00).1.boot_loader = ⟨0xE00, 0xFFF, 512⟩ ∧
    (set_fuse_bytes demoAvr 0x04 0x00).1.boot_loader = ⟨0xF00, 0xFFF, 256⟩ ∧
    (set_fuse_bytes demoAvr 0x06 0x00).1.boot_loader = ⟨0xF80, 0xFFF, 128⟩ :=
  ⟨(c3_boot_size_regions demoAvr 0x00 0x00).1 (by decide),
   (c3_boot_size_regions demoAvr 0x02 0x00).2.1 (by decide),
   (c3_boot_size_regions demoAvr 0x04 0x00).2.2.1 (by decide),
   (c3_boot_size_regions demoAvr 0x06 0x00).2.2.2.1 (by decide)⟩

/-- C5: CKSEL = 0 decodes successfully for both CKOPT values, to the
external clock with the unknown-frequency sentinel. -/
theorem c5_external_clock (mcu : Avr) (high low : Nat)
    (h : low &&& 0x0F = 0) :
    (set_fuse_bytes mcu high low).2 = none ∧
    (set_fuse_bytes mcu high low).1.clk_source = ClkSource.AVR_EXT_CLK ∧
    (set_fuse_bytes mcu high low).1.freq = UINT32_MAX := by
  have hsnd : (set_fuse_bytes mcu high low).2 = none := by
    rw [set_fuse_bytes_snd]
    simp [h]
  have hclk := set_fuse_bytes_clk mcu high low hsnd
  rw [h] at hclk
  simp only [Prod.mk.injEq, reduceIte] at hclk
  exact ⟨hsnd, hclk.1, hclk.2⟩

/-- C5 witness: CKSEL = 0 with CKOPT programmed (0x00) and with CKOPT
unprogrammed (0x10). -/
theorem c5_witness :
    ((set_fuse_bytes demoAvr 0x00 0x00).2 = none ∧
      (set_fuse_bytes demoAvr 0x00 0x00).1.clk_source = ClkSource.AVR_EXT_CLK ∧
      (set_fuse_bytes demoAvr 0x00 0x00).1.freq = UINT32_MAX) ∧
    ((set_fuse_bytes demoAvr 0x10 0x10).2 = none ∧
      (set_fuse_bytes demoAvr 0x10 0x10).1.clk_source = ClkSource.AVR_EXT_CLK ∧
      (set_fuse_bytes demoAvr 0x10 0x10).1.freq = UINT32_MAX) :=
  ⟨c5_external_clock demoAvr 0x00 0x00 (by decide),
   c5_external_clock demoAvr 0x10 0x10 (by decide)⟩

/-- C10: whenever `set_fuse_bytes` fails with `InvalidFuseConfig`, the
descriptor it leaves behind has nonetheless already been mutated: the
raw fuse bytes are stored and the boot loader region is set from the
boot-size field, so the failure is not atomic. -/
theorem c10_fuse_failure_not_atomic (mcu : Avr) (high low : Nat)
    (h : (set_fuse_bytes mcu high low).2 = some Err.InvalidFuseConfig) :
    (set_fuse_bytes mcu high low).1.fuse1 = high ∧
    (set_fuse_bytes mcu high low).1.fuse0 = low ∧
    (set_fuse_bytes mcu high low).1.boot_loader =
      (if (high >>> 1) &&& 0x03 = 0x01 then (⟨0xE00, 0xFFF, 512⟩ : BootLoader)
       else if (high >>> 1) &&& 0x03 = 0x02 then ⟨0xF00, 0xFFF, 256⟩
       else if (high >>> 1) &&& 0x03 = 0x03 then ⟨0xF80, 0xFFF, 128⟩
       else ⟨0xC00, 0xFFF, 1024⟩) :=
  ⟨(set_fuse_bytes_fuse mcu high low).1, (set_fuse_bytes_fuse mcu high low).2,
   set_fuse_bytes_boot mcu high low⟩

/-- C10 witness: fuse bytes 0x02/0x01 (CKSEL = 1, CKOPT = 0) fail, yet
the fuse bytes and the 512-word boot region selected by BOOTSZ = 01 are
already in place. -/
theorem c10_witness :
    (set_fuse_bytes demoAvr 0x02 0x01).1.fuse1 = 0x02 ∧
    (set_fuse_bytes demoAvr 0x02 0x01).1.fuse0 = 0x01 ∧
    (set_fuse_bytes demoAvr 0x02 0x01).1.boot_loader = ⟨0xE00, 0xFFF, 512⟩ := by
  have h := c10_fuse_failure_not_atomic demoAvr 0x02 0x01 (by decide)
  refine ⟨h.1, h.2.1, ?_⟩
  rw [h.2.2]
  decide

set_option maxHeartbeats 1000000 in
/-- C4: initializing any present descriptor succeeds and yields lock
bits 0x3F, raw fuse bytes 0xD9/0xE1, the internal clock at 1000, and
the (0xC00, 0xFFF, 1024) boot region; an absent descriptor fails with
`NullMCU`. -/
theorem c4_default_init :
    (∀ mcu : Avr, ∃ mcu2 : Avr,
      m8a_init (some mcu) = Except.ok mcu2 ∧
      mcu2.lockbits = 0x3F ∧ mcu2.fuse1 = 0xD9 ∧ mcu2.fuse0 = 0xE1 ∧
      mcu2.clk_source = ClkSource.AVR_INT_CLK ∧ mcu2.freq = 1000 ∧
      mcu2.boot_loader = ⟨0xC00, 0xFFF, 1024⟩) ∧
    m8a_init none = Except.error Err.NullMCU :=
  ⟨fun mcu => ⟨_, rfl, rfl, rfl, rfl, rfl, rfl, rfl⟩, rfl⟩

/-- C6 counterexample: on a descriptor whose flash spans 0x10000 bytes
(flashstart 0, flashend 0xFFFF), binding exactly
(flashend - flashstart + 1) / 2 = 0x8000 words is rejected, because
the C code truncates the span with a `uint16_t` cast before halving;
the claim as stated predicts success here. -/
theorem c6_cex :
    (m8a_set_progmem { demoAvr with flashend := 0xFFFF } (fun _ => 0) 0x8000).2
        = some (Err.SizeMismatch 0 0x8000) ∧
    (0x8000 : Nat) =
      (({ demoAvr with flashend := 0xFFFF } : Avr).flashend
        - ({ demoAvr with flashend := 0xFFFF } : Avr).flashstart + 1) / 2 :=
  ⟨rfl, by decide⟩

/-- C6 (amended): under the documented invariant flashstart ≤ flashend,
`m8a_set_progmem` fails if and only if the word count differs from the
flash span truncated to 16 bits and halved, the failure is
`SizeMismatch` carrying expected and supplied sizes, and success binds
the supplied buffer as program memory. -/
theorem c6_bind_memory_size (mcu : Avr) (mem : Mem) (size : Nat)
    (hle : mcu.flashstart ≤ mcu.flashend) :
    ((m8a_set_progmem mcu mem size).2 ≠ none ↔
      size ≠ ((mcu.flashend - mcu.flashstart + 1) % 65536) / 2) ∧
    (∀ e, (m8a_set_progmem mcu mem size).2 = some e →
      e = Err.SizeMismatch (((mcu.flashend - mcu.flashstart + 1) % 65536) / 2) size) ∧
    ((m8a_set_progmem mcu mem size).2 = none →
      (m8a_set_progmem mcu mem size).1.prog_mem = some mem) := by
  unfold m8a_set_progmem
  dsimp only
  split_ifs with h
  · refine ⟨by simpa using h, ?_, by simp⟩
    intro e he
    exact ((Option.some.injEq _ _).mp he).symm
  · refine ⟨by simpa using h, ?_, fun _ => rfl⟩
    intro e he
    exact absurd he (by simp)

/-- C6 (amended) witness: the demonstration descriptor has a truncated
flash span of 1 byte, so word count 5 is rejected with the
`SizeMismatch` diagnostic and word count 0 is accepted, binding the
buffer. -/
theorem c6_witness :
    (((m8a_set_progmem demoAvr (fun _ => 0) 5).2 ≠ none ↔
        (5 : Nat) ≠ ((demoAvr.flashend - demoAvr.flashstart + 1) % 65536) / 2) ∧
      (∀ e, (m8a_set_progmem demoAvr (fun _ => 0) 5).2 = some e →
        e = Err.SizeMismatch (((demoAvr.flashend - demoAvr.flashstart + 1) % 65536) / 2) 5) ∧
      ((m8a_set_progmem demoAvr (fun _ => 0) 5).2 = none →
        (m8a_set_progmem demoAvr (fun _ => 0) 5).1.prog_mem = some (fun _ => 0))) ∧
    (((m8a_set_progmem demoAvr (fun _ => 0) 0).2 ≠ none ↔
        (0 : Nat) ≠ ((demoAvr.flashend - demoAvr.flashstart + 1) % 65536) / 2) ∧
      (∀ e, (m8a_set_progmem demoAvr (fun _ => 0) 0).2 = some e →
        e = Err.SizeMismatch (((demoAvr.flashend - demoAvr.flashstart + 1) % 65536) / 2) 0) ∧
      ((m8a_set_progmem demoAvr (fun _ => 0) 0).2 = none →
        (m8a_set_progmem demoAvr (fun _ => 0) 0).1.prog_mem = some (fun _ => 0))) :=
  ⟨c6_bind_memory_size demoAvr (fun _ => 0) 5 (by decide),
   c6_bind_memory_size demoAvr (fun _ => 0) 0 (by decide)⟩

/-- C7: loading from a NULL stream fails with `NoStream` and returns
the program memory exactly as it was: the stream check precedes every
write. -/
theorem c7_no_stream (mem : Mem) :
    m8a_load_progmem mem none = (mem, some Err.NoStream) := rfl

/-- C8: `m8a_set_datamem` always fails with `NotImplemented` and
returns the descriptor unchanged. -/
theorem c8_set_datamem_not_implemented (mcu : Avr) (mem : Mem) (size : Nat) :
    m8a_set_datamem mcu mem size = (mcu, some Err.NotImplemented) := rfl

/-- C9: when `m8a_set_progmem` fails, the descriptor is returned
completely unchanged; in particular its program-memory pointer keeps
its previous value. -/
theorem c9_bind_failure_frame (mcu : Avr) (mem : Mem) (size : Nat)
    (h : (m8a_set_progmem mcu mem size).2 ≠ none) :
    (m8a_set_progmem mcu mem size).1 = mcu := by
  revert h
  unfold m8a_set_progmem
  dsimp only
  split_ifs with hs
  · intro _
    rfl
  · intro h
    exact absurd rfl h

/-- C9 witness: a rejected word count (5 against capacity 0) leaves the
demonstration descriptor untouched. -/
theorem c9_witness :
    (m8a_set_progmem demoAvr (fun _ => 0) 5).1 = demoAvr :=
  c9_bind_failure_frame demoAvr (fun _ => 0) 5 (by decide)

theorem writeBytes_outside (mem : Mem) (b2 : Nat) (d2 : List Nat) (a : Nat)
    (h : a < b2 ∨ b2 + d2.length ≤ a) : writeBytes mem b2 d2 a = mem a := by
  unfold writeBytes
  rw [if_neg]
  omega

theorem readBytes_congr_outside (M1 M2 : Mem) (base len : Nat)
    (h : ∀ a, base ≤ a → a < base + len → M1 a = M2 a) :
    readBytes M1 base len = readBytes M2 base len := by
  unfold readBytes
  apply List.map_congr_left
  intro i hi
  rw [List.mem_range] at hi
  exact h (base + i) (by omega) (by omega)

theorem readBytes_writeBytes (mem : Mem) (base : Nat) (data : List Nat) :
    readBytes (writeBytes mem base data) base data.length = data := by
  apply List.ext_getElem
  · simp [readBytes]
  · intro i h1 h2
    simp only [readBytes, List.getElem_map, List.getElem_range, writeBytes]
    rw [if_pos (by constructor <;> omega), Nat.add_sub_cancel_left]
    exact List.getD_eq_getElem data 0 h2

theorem readBytes_ingest_outside (recs : List IHexRecord) (mem : Mem) (base len : Nat)
    (h : ∀ q ∈ recs, q.type = IHEX_TYPE_00 →
      base + len ≤ recBase q ∨ recBase q + q.data.length ≤ base) :
    readBytes (ingest mem recs) base len = readBytes mem base len := by
  induction recs generalizing mem with
  | nil => rfl
  | cons r rs ih =>
    simp only [ingest]
    by_cases hr : r.type = IHEX_TYPE_00
    · rw [if_pos hr]
      rw [ih _ (fun q hq hqt => h q (List.mem_cons_of_mem r hq) hqt)]
      apply readBytes_congr_outside
      intro a ha1 ha2
      apply writeBytes_outside
      have hd := h r (List.mem_cons_self r rs) hr
      omega
    · rw [if_neg hr]
      exact ih _ (fun q hq hqt => h q (List.mem_cons_of_mem r hq) hqt)

theorem readBytes_ingest_of_mem (recs : List IHexRecord) (mem : Mem) (q : IHexRecord)
    (hq : q ∈ recs) (hqt : q.type = IHEX_TYPE_00) (hdisj : recsDisjoint recs) :
    readBytes (ingest mem recs) (recBase q) q.data.length = q.data := by
  induction recs generalizing mem with
  | nil => simp at hq
  | cons r rs ih =>
    unfold recsDisjoint at hdisj
    rw [List.pairwise_cons] at hdisj
    rcases List.mem_cons.mp hq with rfl | hq2
    · simp only [ingest, if_pos hqt]
      rw [readBytes_ingest_outside]
      · exact readBytes_writeBytes mem (recBase q) q.data
      · intro b hb hbt
        exact hdisj.1 b hb hqt hbt
    · simp only [ingest]
      by_cases hr : r.type = IHEX_TYPE_00
      · rw [if_pos hr]
        exact ih _ hq2 hdisj.2
      · rw [if_neg hr]
        exact ih _ hq2 hdisj.2

theorem verify_of_readBytes (recs : List IHexRecord) (M : Mem)
    (hread : ∀ q ∈ recs, q.type = IHEX_TYPE_00 →
      readBytes M (recBase q) q.data.length = q.data)
    (hck : goodChecksums recs) :
    verify M recs = none := by
  induction recs with
  | nil => rfl
  | cons r rs ih =>
    simp only [verify]
    by_cases hr : r.type = IHEX_TYPE_00
    · rw [if_neg (by simpa using hr)]
      rw [hread r (List.mem_cons_self r rs) hr]
      rw [if_neg]
      · exact ih (fun q hq hqt => hread q (List.mem_cons_of_mem r hq) hqt)
          (fun q hq hqt => hck q (List.mem_cons_of_mem r hq) hqt)
      · have h1 : Checksum_IHexRecord
            { address := r.address, data := r.data, type := r.type, checksum := 0 } =
            Checksum_IHexRecord r := rfl
        simp only [h1]
        simp [hck r (List.mem_cons_self r rs) hr]
    · rw [if_pos hr]
      exact ih (fun q hq hqt => hread q (List.mem_cons_of_mem r hq) hqt)
        (fun q hq hqt => hck q (List.mem_cons_of_mem r hq) hqt)

theorem verify_app_fails (pre : List IHexRecord) (r : IHexRecord)
    (post : List IHexRecord) (M : Mem)
    (hread : ∀ q ∈ pre, q.type = IHEX_TYPE_00 →
      readBytes M (recBase q) q.data.length = q.data)
    (hck : ∀ q ∈ pre, q.type = IHEX_TYPE_00 → q.checksum = Checksum_IHexRecord q)
    (hr : r.type = IHEX_TYPE_00)
    (hbad : Checksum_IHexRecord
        { address := r.address, data := readBytes M (recBase r) r.data.length,
          type := r.type, checksum := 0 } ≠ r.checksum) :
    ∃ mem_rec : IHexRecord,
      verify M (pre ++ r :: post) = some (mem_rec, r) ∧
      mem_rec.checksum ≠ r.checksum := by
  induction pre with
  | nil =>
    refine ⟨{ address := r.address, data := readBytes M (recBase r) r.data.length,
              type := r.type,
              checksum := Checksum_IHexRecord
                { address := r.address, data := readBytes M (recBase r) r.data.length,
                  type := r.type, checksum := 0 } }, ?_, hbad⟩
    simp only [List.nil_append, verify]
    rw [if_neg (by simpa using hr), if_pos hbad]
  | cons q pre ih =>
    have hqr : q ∈ q :: pre := List.mem_cons_self q pre
    obtain ⟨mr, hmr, hne⟩ := ih
      (fun p hp hpt => hread p (List.mem_cons_of_mem q hp) hpt)
      (fun p hp hpt => hck p (List.mem_cons_of_mem q hp) hpt)
    refine ⟨mr, ?_, hne⟩
    simp only [List.cons_append, verify]
    by_cases hq : q.type = IHEX_TYPE_00
    · rw [if_neg (by simpa using hq)]
      rw [hread q hqr hq]
      rw [if_neg]
      · exact hmr
      · have h1 : Checksum_IHexRecord
            { address := q.address, data := q.data, type := q.type, checksum := 0 } =
            Checksum_IHexRecord q := rfl
        simp only [h1]
        simp [hck q hqr hq]
    · rw [if_pos hq]
      exact hmr

theorem twos_complement_inj (x y : Nat)
    (h : (256 - x % 256) % 256 = (256 - y % 256) % 256) : x % 256 = y % 256 := by
  omega

theorem sum_set_add (l : List Nat) (i c : Nat) (h : i < l.length) :
    (l.set i c).sum + l.getD i 0 = l.sum + c := by
  induction l generalizing i with
  | nil => simp at h
  | cons a l ih =>
    cases i with
    | zero =>
      simp only [List.set, List.sum_cons, List.getD_cons_zero]
      omega
    | succ j =>
      simp only [List.set, List.sum_cons, List.getD_cons_succ]
      have := ih j (by simpa using h)
      omega

theorem checksum_ne_of_set (r : IHexRecord) (i c : Nat)
    (hi : i < r.data.length) (hb : r.data.getD i 0 < 256) (hc : c < 256)
    (hne : c ≠ r.data.getD i 0) :
    Checksum_IHexRecord
      { address := r.address, data := r.data.set i c, type := r.type, checksum := 0 } ≠
    Checksum_IHexRecord r := by
  intro he
  unfold Checksum_IHexRecord at he
  simp only [List.length_set] at he
  have h2 := twos_complement_inj _ _ he
  have hsum := sum_set_add r.data i c hi
  omega

theorem readBytes_corruptAt_inside (M : Mem) (base len i c : Nat) (hi : i < len) :
    readBytes (corruptAt M (base + i) c) base len = (readBytes M base len).set i c := by
  apply List.ext_getElem
  · simp [readBytes]
  · intro j h1 h2
    simp only [readBytes, corruptAt, List.getElem_set, List.getElem_map,
      List.getElem_range]
    by_cases hij : i = j
    · subst hij
      rw [if_pos rfl, if_pos rfl]
    · rw [if_neg (by omega), if_neg hij]

theorem readBytes_corruptAt_outside (M : Mem) (base len p c : Nat)
    (h : p < base ∨ base + len ≤ p) :
    readBytes (corruptAt M p c) base len = readBytes M base len := by
  apply readBytes_congr_outside
  intro a ha1 ha2
  unfold corruptAt
  rw [if_neg (by omega)]

/-- C1: loading a well-formed image (correctly checksummed Data
records writing disjoint ranges) through both passes succeeds and
leaves exactly the ingested memory; corrupting one byte of a Data
record `r` in memory between the passes makes the verify pass abort
with a checksum mismatch at `r`, the record in file order whose range
holds the corrupted byte. -/
theorem c1_load_verify_round_trip :
    (∀ (mem : Mem) (recs : List IHexRecord),
      goodChecksums recs → recsDisjoint recs →
      m8a_load_progmem mem (some recs) = (ingest mem recs, none)) ∧
    (∀ (mem : Mem) (pre : List IHexRecord) (r : IHexRecord)
        (post : List IHexRecord) (i c : Nat),
      goodChecksums (pre ++ r :: post) → recsDisjoint (pre ++ r :: post) →
      r.type = IHEX_TYPE_00 → i < r.data.length →
      r.data.getD i 0 < 256 → c < 256 → c ≠ r.data.getD i 0 →
      ∃ mem_rec : IHexRecord,
        verify (corruptAt (ingest mem (pre ++ r :: post)) (recBase r + i) c)
            (pre ++ r :: post) = some (mem_rec, r) ∧
        mem_rec.checksum ≠ r.checksum) := by
  constructor
  · intro mem recs hck hdisj
    have hv := verify_of_readBytes recs (ingest mem recs)
      (fun q hq hqt => readBytes_ingest_of_mem recs mem q hq hqt hdisj) hck
    simp only [m8a_load_progmem]
    rw [hv]
  · intro mem pre r post i c hck hdisj hr hi hb hc hne
    have hrmem : r ∈ pre ++ r :: post := by simp
    have hbase := readBytes_ingest_of_mem (pre ++ r :: post) mem r hrmem hr hdisj
    have hpw := hdisj
    unfold recsDisjoint at hpw
    rw [List.pairwise_append] at hpw
    apply verify_app_fails
    · intro q hq hqt
      have hqmem : q ∈ pre ++ r :: post := by simp [hq]
      have hqd : dataDisjoint q r :=
        hpw.2.2 q hq r (List.mem_cons_self r post) hqt hr
      rw [readBytes_corruptAt_outside]
      · exact readBytes_ingest_of_mem _ mem q hqmem hqt hdisj
      · unfold dataDisjoint at hqd
        omega
    · intro q hq hqt
      exact hck q (by simp [hq]) hqt
    · exact hr
    · rw [readBytes_corruptAt_inside _ _ _ _ _ hi, hbase,
        hck r hrmem hr]
      exact checksum_ne_of_set r i c hi hb hc hne

/-- C1 witness: the one-record image loads and verifies; zeroing its
first in-memory byte between the passes makes verification fail at
that record with differing checksums. -/
theorem c1_witness :
    (m8a_load_progmem memZero (some [demoRec]) = (ingest memZero [demoRec], none)) ∧
    (∃ mem_rec : IHexRecord,
      verify (corruptAt (ingest memZero [demoRec]) (recBase demoRec + 0) 0)
          [demoRec] = some (mem_rec, demoRec) ∧
      mem_rec.checksum ≠ demoRec.checksum) :=
  ⟨c1_load_verify_round_trip.1 memZero [demoRec] (by decide) (by decide),
   c1_load_verify_round_trip.2 memZero [] demoRec [] 0 0 (by decide) (by decide)
     (by decide) (by decide) (by decide) (by decide) (by decide)⟩
